import Mathlib

/-!
Verification of the Bootcamp Rally race simulation and settlement workflow.

The development shallowly embeds the relevant parts of the repository:

* `simulate_time_minutes` from `streamlit_app.py` (the race time model),
  with Python floats modelled as rationals and the random draw
  `random.uniform(lo, hi)` passed in explicitly as a `rand` parameter;
* the persistence layer of `snowflake_db.py` (`execute`, `execute_many`,
  the `Transaction` context manager and the module-global `IN_TRANSACTION`
  flag), modelled as explicit state passing over a `SnowflakeState` that
  records the session view of the database, the last committed database,
  and the flag;
* the data-access functions of `rally_data_access.py` used by the race
  page (`create_race`, `insert_race_results`, `set_race_winner`,
  `pay_participation_fee_for_all_teams_with_cars`, `credit_winner_prize`),
  each given as the state update performed by its SQL statement;
* the race page settlement block of `streamlit_app.py` (`racePage`), with
  persistence failures injected through an explicit `FailPoint` parameter.
-/

/-- Python `round(q)` rounds to the nearest integer, ties to the even
integer.  `roundHalfEven q` is that integer rounding of a rational. -/
def roundHalfEven (q : ℚ) : ℤ :=
  let f := ⌊q⌋
  let r := q - (f : ℚ)
  if r < 1/2 then f
  else if 1/2 < r then f + 1
  else if f % 2 = 0 then f else f + 1

/-- Python `round(x, 3)`: round to the nearest multiple of `1/1000`,
ties to even (exact rational model of the decimal rounding). -/
def pyRound3 (q : ℚ) : ℚ := (roundHalfEven (1000 * q) : ℚ) / 1000

/-- Python `max(0.0, min(1.0, x))`, the defensive clamp applied to
`durability` and `acceleration` in `simulate_time_minutes`. -/
def clamp01 (x : ℚ) : ℚ := max 0 (min 1 x)

/-- Default `variability` argument of `simulate_time_minutes`: `(0.95, 1.05)`. -/
def default_variability : ℚ × ℚ := (19/20, 21/20)

/-- Default `distance_km` argument of `simulate_time_minutes`: `100.0`. -/
def default_distance_km : ℚ := 100

set_option linter.unusedVariables false in
/-- Race time model, from `streamlit_app.py`.  The source draws
`rand = random.uniform(variability[0], variability[1])`; the draw is passed
in explicitly as `rand` so that the function is a pure function of its
inputs.  The `variability` argument itself is kept in the signature (in the
source it only feeds the random draw). -/
def simulate_time_minutes (speed_kmh durability acceleration track_factor : ℚ)
    (variability : ℚ × ℚ) (distance_km : ℚ) (rand : ℚ) : ℚ :=
  -- performance stuff
  let perf_d := 1/2 + 1/2 * clamp01 durability
  let perf_a := 1/2 + 1/2 * clamp01 acceleration
  -- speed calc
  let eff_speed := speed_kmh * perf_d * perf_a * rand * track_factor
  -- no crazy times
  let eff_speed := max 50 eff_speed
  -- minutes calc
  let time_hours := distance_km / eff_speed
  pyRound3 (time_hours * 60)

/-! ## Data model

Rows of the four Snowflake tables used by the race workflow
(`TEAMS.TEAMS`, `CARS.CARS`, `RACES.RACES`, `RACES.RACE_RESULTS`).
`CARS.TEAM_ID` is nullable in the schema, but every car the settlement
block races goes through `int(row["TEAM_ID"])`, and the participation-fee
update only touches non-null team ids; the embedding therefore gives each
car a (non-null) owning team id. -/

/-- Row of `BOOTCAMP_RALLY.TEAMS.TEAMS`. -/
structure Team where
  team_id : ℤ
  team_name : String
  members : String
  budget : ℚ
deriving DecidableEq, Repr

/-- Row of `BOOTCAMP_RALLY.CARS.CARS`. -/
structure Car where
  car_id : ℤ
  car_name : String
  team_id : ℤ
  speed : ℚ
  durability : ℚ
  acceleration : ℚ
deriving DecidableEq, Repr

/-- Row of `BOOTCAMP_RALLY.RACES.RACES`; `WINNER_TEAM_ID` is null until set. -/
structure Race where
  race_id : ℤ
  track_name : String
  winner_team_id : Option ℤ
deriving DecidableEq, Repr

/-- Row of `BOOTCAMP_RALLY.RACES.RACE_RESULTS`. -/
structure RaceResult where
  race_id : ℤ
  car_id : ℤ
  time_taken : ℚ
  position : ℤ
deriving DecidableEq, Repr

/-- The database contents relevant to the race workflow.  Each table is a
list of rows; `cars` is kept in `CAR_ID` order (the order `get_all_cars`
returns, which is also insertion order of the identity column). -/
structure Database where
  teams : List Team
  cars : List Car
  races : List Race
  race_results : List RaceResult
deriving DecidableEq, Repr

/-! ## Persistence layer (`snowflake_db.py`)

The connection is opened with `autocommit=False`, so the session holds a
current view `db` and the last committed state `committed`; `commit` saves
the view and `rollback` restores it.  The module-global `IN_TRANSACTION`
flag is part of the state. -/

/-- State of the (single) Snowflake session together with the module-global
`IN_TRANSACTION` flag of `snowflake_db.py`. -/
structure SnowflakeState where
  db : Database
  committed : Database
  in_transaction : Bool
deriving DecidableEq, Repr

/-- Model of `conn.commit()`: the session view becomes the committed state. -/
def Conn.commit (s : SnowflakeState) : SnowflakeState :=
  { s with committed := s.db }

/-- Model of `conn.rollback()`: the session view is restored to the last
committed state. -/
def Conn.rollback (s : SnowflakeState) : SnowflakeState :=
  { s with db := s.committed }

/-- Model of `snowflake_db.execute`: run a non-select statement (given by
its effect `w` on the database) and auto-commit unless `IN_TRANSACTION`. -/
def execute (w : Database → Database) (s : SnowflakeState) : SnowflakeState :=
  let s1 := { s with db := w s.db }
  if s1.in_transaction then s1 else Conn.commit s1

/-- Model of `snowflake_db.execute_many`: like `execute`, for a statement
run once per parameter tuple; the whole batch is one database effect. -/
def execute_many (w : Database → Database) (s : SnowflakeState) : SnowflakeState :=
  let s1 := { s with db := w s.db }
  if s1.in_transaction then s1 else Conn.commit s1

/-- Model of the `Transaction` context manager of `snowflake_db.py` used as
`with transaction(conn): body`.  `__enter__` saves the previous flag and
sets it; `__exit__` commits when the body finished normally and rolls back
when it raised, finally restores the flag, and returns `False` so the
exception propagates.  A body is a state transformer that also reports the
exception it raised, if any. -/
def withTransaction {ε : Type} (body : SnowflakeState → SnowflakeState × Option ε)
    (s : SnowflakeState) : SnowflakeState × Option ε :=
  let prev := s.in_transaction
  let p := body { s with in_transaction := true }
  match p.2 with
  | none => ({ Conn.commit p.1 with in_transaction := prev }, none)
  | some e => ({ Conn.rollback p.1 with in_transaction := prev }, some e)

/-! ## Data access (`rally_data_access.py`) -/

/-- Maximum of a list of integers, `none` on the empty list; models
`SELECT MAX(RACE_ID) FROM BOOTCAMP_RALLY.RACES.RACES`. -/
def listMaxInt : List ℤ → Option ℤ
  | [] => none
  | x :: xs =>
    match listMaxInt xs with
    | none => some x
    | some m => some (max x m)

/-- Identity value the `RACES` table assigns to the next inserted row:
one more than the current maximum `RACE_ID` (starting from 1). -/
def nextRaceId (db : Database) : ℤ :=
  (listMaxInt (db.races.map Race.race_id)).getD 0 + 1

/-- Model of `create_race`: insert a `RACES` row for the track (the
identity column assigns `nextRaceId`), then read back
`SELECT MAX(RACE_ID)`.  The source returns `None` when the max is null,
which cannot happen right after the insert. -/
def create_race (track_name : String) (s : SnowflakeState) : SnowflakeState × Option ℤ :=
  let rid := nextRaceId s.db
  let s1 := execute (fun db => { db with races := db.races ++ [⟨rid, track_name, none⟩] }) s
  (s1, listMaxInt (s1.db.races.map Race.race_id))

/-- Database effect of the `set_race_winner` SQL statement:
`UPDATE RACES SET WINNER_TEAM_ID = %s WHERE RACE_ID = %s`. -/
def setWinnerDb (race_id winner_team_id : ℤ) (db : Database) : Database :=
  { db with races := db.races.map (fun r =>
      if r.race_id = race_id then { r with winner_team_id := some winner_team_id } else r) }

/-- Model of `set_race_winner`. -/
def set_race_winner (race_id winner_team_id : ℤ) (s : SnowflakeState) : SnowflakeState :=
  execute (setWinnerDb race_id winner_team_id) s

/-- Database effect of the `insert_race_results` bulk insert:
`INSERT INTO RACE_RESULTS (RACE_ID, CAR_ID, TIME_TAKEN, POSITION)`, one
row per `(car_id, time_taken, position)` tuple, in list order. -/
def insertResultsDb (race_id : ℤ) (results : List (ℤ × ℚ × ℤ)) (db : Database) : Database :=
  { db with race_results := db.race_results ++
      results.map (fun t => ⟨race_id, t.1, t.2.1, t.2.2⟩) }

/-- Model of `insert_race_results`. -/
def insert_race_results (race_id : ℤ) (results : List (ℤ × ℚ × ℤ))
    (s : SnowflakeState) : SnowflakeState :=
  execute_many (insertResultsDb race_id results) s

/-- Database effect of the participation-fee update:
`UPDATE TEAMS SET BUDGET = BUDGET - fee WHERE TEAM_ID IN (SELECT DISTINCT
TEAM_ID FROM CARS WHERE TEAM_ID IS NOT NULL)`. -/
def payFeeDb (fee : ℚ) (db : Database) : Database :=
  { db with teams := db.teams.map (fun t =>
      if t.team_id ∈ db.cars.map Car.team_id then { t with budget := t.budget - fee } else t) }

/-- Model of `pay_participation_fee_for_all_teams_with_cars`. -/
def pay_participation_fee_for_all_teams_with_cars (fee : ℚ)
    (s : SnowflakeState) : SnowflakeState :=
  execute (payFeeDb fee) s

/-- Database effect of the winner-prize update:
`UPDATE TEAMS SET BUDGET = BUDGET + prize WHERE TEAM_ID = winner_team_id`. -/
def creditDb (winner_team_id : ℤ) (prize : ℚ) (db : Database) : Database :=
  { db with teams := db.teams.map (fun t =>
      if t.team_id = winner_team_id then { t with budget := t.budget + prize } else t) }

/-- Model of `credit_winner_prize`. -/
def credit_winner_prize (winner_team_id : ℤ) (prize : ℚ)
    (s : SnowflakeState) : SnowflakeState :=
  execute (creditDb winner_team_id prize) s

/-! ## Race page settlement block (`streamlit_app.py`) -/

/-- Errors the race page run can surface: the empty-roster abort
(`st.warning` + `st.stop()`) and an injected persistence failure inside
the atomic group. -/
inductive RallyError where
  | emptyRoster
  | persistenceFailure
deriving DecidableEq, Repr

/-- Injection point for a persistence failure: which of the four grouped
operations raises.  `none` at `racePage` means the whole group succeeds. -/
inductive FailPoint where
  | atInsertResults
  | atSetWinner
  | atPayFee
  | atCreditPrize
deriving DecidableEq, Repr

/-- One entry of the `rows` list the race page builds per car
(`CAR_ID`, `TEAM_ID`, `CAR_NAME`, `TEAM_NAME`, `TIME_MIN`). -/
structure RaceRow where
  car_id : ℤ
  team_id : ℤ
  car_name : String
  team_name : String
  time_min : ℚ
deriving DecidableEq, Repr, Inhabited

/-- The finish time the race page computes for a car: it calls
`simulate_time_minutes` with the car's attributes, the track factor, and
the default variability and distance; `randf` supplies the car's random
draw. -/
def carTime (track_factor : ℚ) (randf : Car → ℚ) (c : Car) : ℚ :=
  simulate_time_minutes c.speed c.durability c.acceleration track_factor
    default_variability default_distance_km (randf c)

/-- The `rows` list of the race page: one `RaceRow` per roster car, in
roster order, with the team name looked up as in the `get_all_cars` join. -/
def computeRows (teams : List Team) (cars : List Car) (track_factor : ℚ)
    (randf : Car → ℚ) : List RaceRow :=
  cars.map (fun c =>
    { car_id := c.car_id
      team_id := c.team_id
      car_name := c.car_name
      team_name := ((teams.find? (fun t => t.team_id = c.team_id)).map Team.team_name).getD ""
      time_min := carTime track_factor randf c })

/-- The comparison `sorted(rows, key=lambda r: r["TIME_MIN"])` sorts by:
lower time first.  Python's `sorted` is stable, which `List.mergeSort`
with this comparison models exactly. -/
def timeLE (a b : RaceRow) : Bool := a.time_min ≤ b.time_min

/-- `rows_sorted` of the race page: rows stably sorted by time. -/
def sortRows (rows : List RaceRow) : List RaceRow := rows.mergeSort timeLE

/-- `results_payload` of the race page: `(CAR_ID, TIME_MIN, position)` per
sorted row, positions enumerated from 1. -/
def results_payload (rows_sorted : List RaceRow) : List (ℤ × ℚ × ℤ) :=
  rows_sorted.enum.map (fun p => (p.2.car_id, p.2.time_min, (p.1 : ℤ) + 1))

/-- The four persistence operations inside `with transaction(conn)` on the
race page, as a transaction body.  `failAt` injects a persistence failure:
the named operation raises instead of running (a failing statement leaves
the database unchanged). -/
def settlementBody (race_id winner_team_id : ℤ) (payload : List (ℤ × ℚ × ℤ))
    (fee prize : ℚ) (failAt : Option FailPoint)
    (s : SnowflakeState) : SnowflakeState × Option RallyError :=
  if failAt = some FailPoint.atInsertResults then (s, some RallyError.persistenceFailure) else
  let s := insert_race_results race_id payload s
  if failAt = some FailPoint.atSetWinner then (s, some RallyError.persistenceFailure) else
  let s := set_race_winner race_id winner_team_id s
  if failAt = some FailPoint.atPayFee then (s, some RallyError.persistenceFailure) else
  let s := pay_participation_fee_for_all_teams_with_cars fee s
  if failAt = some FailPoint.atCreditPrize then (s, some RallyError.persistenceFailure) else
  let s := credit_winner_prize winner_team_id prize s
  (s, none)

/-- Result of one race page run: final session state, the race id the page
obtained from `create_race` (0 on the empty-roster abort, where none is
obtained), and the error surfaced, if any. -/
structure RaceOutcome where
  state : SnowflakeState
  race_id : ℤ
  err : Option RallyError
deriving DecidableEq, Repr

/-- The race page settlement block (`Start race!` handler) of
`streamlit_app.py`: abort on an empty roster; otherwise create the race
(auto-committed, since `IN_TRANSACTION` is not set there), compute and
stably sort the per-car times, build the results payload and the winner,
and run the four persistence operations inside `with transaction(conn)`. -/
def racePage (track_name : String) (track_factor fee prize : ℚ)
    (randf : Car → ℚ) (failAt : Option FailPoint)
    (s : SnowflakeState) : RaceOutcome :=
  let cars := s.db.cars
  if cars.isEmpty then
    { state := s, race_id := 0, err := some RallyError.emptyRoster }
  else
    let p := create_race track_name s
    let s1 := p.1
    let race_id := p.2.getD 0
    let rows := computeRows s.db.teams cars track_factor randf
    let rows_sorted := sortRows rows
    let payload := results_payload rows_sorted
    let winner_team_id := rows_sorted.headI.team_id
    let q := withTransaction
      (settlementBody race_id winner_team_id payload fee prize failAt) s1
    { state := q.1, race_id := race_id, err := q.2 }

/-! ## Rounding lemmas -/

theorem roundHalfEven_eq_ite (q : ℚ) :
    roundHalfEven q =
      if q - (⌊q⌋ : ℚ) < 1/2 then ⌊q⌋
      else if 1/2 < q - (⌊q⌋ : ℚ) then ⌊q⌋ + 1
      else if ⌊q⌋ % 2 = 0 then ⌊q⌋ else ⌊q⌋ + 1 := rfl

theorem roundHalfEven_le_bounds (q : ℚ) :
    ⌊q⌋ ≤ roundHalfEven q ∧ roundHalfEven q ≤ ⌊q⌋ + 1 := by
  rw [roundHalfEven_eq_ite]
  split_ifs <;> omega

theorem roundHalfEven_mono {x y : ℚ} (h : x ≤ y) : roundHalfEven x ≤ roundHalfEven y := by
  have hf : ⌊x⌋ ≤ ⌊y⌋ := Int.floor_mono h
  rcases eq_or_lt_of_le hf with heq | hlt
  · have hx1 : (⌊x⌋ : ℚ) ≤ x := Int.floor_le x
    have hy1 : (⌊y⌋ : ℚ) ≤ y := Int.floor_le y
    rw [roundHalfEven_eq_ite, roundHalfEven_eq_ite, ← heq]
    have hr : x - (⌊x⌋ : ℚ) ≤ y - (⌊x⌋ : ℚ) := by linarith
    split_ifs <;> first | omega | linarith
  · calc roundHalfEven x ≤ ⌊x⌋ + 1 := (roundHalfEven_le_bounds x).2
      _ ≤ ⌊y⌋ := by omega
      _ ≤ roundHalfEven y := (roundHalfEven_le_bounds y).1

theorem roundHalfEven_nonneg {q : ℚ} (h : 0 ≤ q) : 0 ≤ roundHalfEven q := by
  have hf : 0 ≤ ⌊q⌋ := Int.floor_nonneg.mpr h
  have := roundHalfEven_le_bounds q
  omega

theorem one_le_roundHalfEven {q : ℚ} (h : 1/2 < q) : 1 ≤ roundHalfEven q := by
  have h0 : (0:ℚ) ≤ q := by linarith
  have hf : 0 ≤ ⌊q⌋ := Int.floor_nonneg.mpr h0
  have hlt : q < (⌊q⌋ : ℚ) + 1 := Int.lt_floor_add_one q
  rw [roundHalfEven_eq_ite]
  split_ifs with h1 h2 h3
  · -- fractional part below a half: the floor must already be positive
    have : (0:ℚ) < (⌊q⌋ : ℚ) := by linarith
    have : 0 < ⌊q⌋ := by exact_mod_cast this
    omega
  · omega
  · -- exact tie at an even floor: the floor must already be positive
    have : (0:ℚ) < (⌊q⌋ : ℚ) := by linarith
    have : 0 < ⌊q⌋ := by exact_mod_cast this
    omega
  · omega

theorem pyRound3_mono {x y : ℚ} (h : x ≤ y) : pyRound3 x ≤ pyRound3 y := by
  unfold pyRound3
  have h1 : roundHalfEven (1000 * x) ≤ roundHalfEven (1000 * y) :=
    roundHalfEven_mono (by linarith)
  have h2 : ((roundHalfEven (1000 * x) : ℚ)) ≤ ((roundHalfEven (1000 * y) : ℚ)) := by
    exact_mod_cast h1
  linarith

theorem pyRound3_nonneg {q : ℚ} (h : 0 ≤ q) : 0 ≤ pyRound3 q := by
  unfold pyRound3
  have h1 : 0 ≤ roundHalfEven (1000 * q) := roundHalfEven_nonneg (by linarith)
  have h2 : (0:ℚ) ≤ (roundHalfEven (1000 * q) : ℚ) := by exact_mod_cast h1
  linarith

theorem pyRound3_pos {q : ℚ} (h : 1/2000 < q) : 0 < pyRound3 q := by
  unfold pyRound3
  have h1 : 1 ≤ roundHalfEven (1000 * q) := one_le_roundHalfEven (by linarith)
  have h2 : (1:ℚ) ≤ (roundHalfEven (1000 * q) : ℚ) := by exact_mod_cast h1
  linarith

theorem clamp01_nonneg (x : ℚ) : 0 ≤ clamp01 x := le_max_left 0 _

theorem clamp01_le_one (x : ℚ) : clamp01 x ≤ 1 :=
  max_le (by norm_num) (min_le_left 1 x)

theorem clamp01_mono {x y : ℚ} (h : x ≤ y) : clamp01 x ≤ clamp01 y :=
  max_le_max (le_refl 0) (min_le_min (le_refl 1) h)

/-! ## The race time formula (spec section 4.1) -/

/-- The race time formula exactly as the spec states it: clamp the two
attributes, form the performance multipliers, floor the effective speed
`speed * perf_d * perf_a * rand * track_factor` at 50, and return
`round(60 * distance_km / effective_speed, 3)`.  This definition follows
the spec's words and is compared against `simulate_time_minutes`, which
follows the source. -/
def race_time_spec (speed durability acceleration track_factor : ℚ)
    (rand distance_km : ℚ) : ℚ :=
  let d := clamp01 durability
  let a := clamp01 acceleration
  let perf_d := 1/2 + 1/2 * d
  let perf_a := 1/2 + 1/2 * a
  let effective_speed := max 50 (speed * perf_d * perf_a * rand * track_factor)
  pyRound3 (60 * distance_km / effective_speed)

/-- C9: for all inputs, the race time model computes
`round(60 * distance_km / effective_speed, 3)` with
`effective_speed = speed * (0.5 + 0.5*clamped durability) *
(0.5 + 0.5*clamped acceleration) * rand * track_factor` floored at 50,
durability and acceleration clamped to `[0,1]` first — that is, the
source function agrees with the spec formula everywhere. -/
theorem simulate_time_minutes_eq_spec_formula
    (speed durability acceleration track_factor : ℚ)
    (variability : ℚ × ℚ) (distance_km rand : ℚ) :
    simulate_time_minutes speed durability acceleration track_factor
        variability distance_km rand
      = race_time_spec speed durability acceleration track_factor rand distance_km := by
  dsimp only [simulate_time_minutes, race_time_spec]
  congr 1
  ring

/-- C2 counterexample: at `speed = 0` (an input the claim says must be
rejected with an error) the race time model does not signal any error: it
returns the ordinary finish time 120 minutes (the 50 km/h floor engages),
for the default variability and distance and any draw — here the draw 1. -/
theorem simulate_no_error_on_zero_speed :
    (0:ℚ) ≤ 0 ∧
      simulate_time_minutes 0 1 1 1 default_variability default_distance_km 1 = 120 := by
  constructor
  · exact le_refl 0
  · norm_num [simulate_time_minutes, clamp01, pyRound3, roundHalfEven,
      default_variability, default_distance_km]

/-- The effective-speed product is nonpositive when the base speed is:
all other factors of `speed * perf_d * perf_a * rand * track_factor`
are nonnegative. -/
theorem eff_product_nonpos {s pd pa r t : ℚ} (hs : s ≤ 0) (hpd : 0 ≤ pd)
    (hpa : 0 ≤ pa) (hr : 0 ≤ r) (ht : 0 ≤ t) : s * pd * pa * r * t ≤ 0 := by
  have h1 : s * pd ≤ 0 := mul_nonpos_iff.mpr (Or.inr ⟨hs, hpd⟩)
  have h2 : s * pd * pa ≤ 0 := mul_nonpos_iff.mpr (Or.inr ⟨h1, hpa⟩)
  have h3 : s * pd * pa * r ≤ 0 := mul_nonpos_iff.mpr (Or.inr ⟨h2, hr⟩)
  exact mul_nonpos_iff.mpr (Or.inr ⟨h3, ht⟩)

/-- C2 amended: the race time model validates nothing and never signals an
error — it is a total function.  In particular, for `speed ≤ 0` (with a
positive track factor and random draw) the 50 km/h effective-speed floor
engages and the function returns the finish time
`round(60 * distance_km / 50, 3)` instead of raising. -/
theorem simulate_total_on_invalid_speed
    (speed durability acceleration track_factor : ℚ)
    (variability : ℚ × ℚ) (distance_km rand : ℚ)
    (hs : speed ≤ 0) (htf : 0 < track_factor) (hr : 0 < rand) :
    simulate_time_minutes speed durability acceleration track_factor
        variability distance_km rand
      = pyRound3 (distance_km / 50 * 60) := by
  dsimp only [simulate_time_minutes]
  have hpd : 0 ≤ 1/2 + 1/2 * clamp01 durability := by
    have := clamp01_nonneg durability; linarith
  have hpa : 0 ≤ 1/2 + 1/2 * clamp01 acceleration := by
    have := clamp01_nonneg acceleration; linarith
  have hprod : speed * (1/2 + 1/2 * clamp01 durability) * (1/2 + 1/2 * clamp01 acceleration)
      * rand * track_factor ≤ 0 :=
    eff_product_nonpos hs hpd hpa hr.le htf.le
  rw [max_eq_left (by linarith)]

/-- Closed-input check for `simulate_total_on_invalid_speed` (claim C2):
the hypotheses hold at speed 0, track factor 1, draw 1, and the
conclusion follows by the theorem. -/
theorem simulate_total_on_invalid_speed_check :
    (0:ℚ) ≤ 0 ∧ (0:ℚ) < 1 ∧
      simulate_time_minutes 0 1 1 1 default_variability default_distance_km 1
        = pyRound3 (default_distance_km / 50 * 60) :=
  ⟨le_refl 0, by norm_num,
    simulate_total_on_invalid_speed 0 1 1 1 default_variability default_distance_km 1
      (le_refl 0) (by norm_num) (by norm_num)⟩

/-- C7 counterexample: a fully valid input on which the race time model
returns exactly 0, not a strictly positive time: speed 200, clamped
attributes 1, track factor 1, valid variability bounds `(0.95, 1.05)`,
draw 1 within the bounds, and distance 0.001 km.  The unrounded time is
0.0003 minutes, and rounding to 3 decimals yields 0. -/
theorem simulate_returns_zero_on_valid_input :
    (0:ℚ) < 200 ∧ (0:ℚ) < 1 ∧ (0:ℚ) < 1/1000 ∧
      0 < default_variability.1 ∧ default_variability.1 ≤ default_variability.2 ∧
      default_variability.1 ≤ 1 ∧ (1:ℚ) ≤ default_variability.2 ∧
      simulate_time_minutes 200 1 1 1 default_variability (1/1000) 1 = 0 := by
  refine ⟨by norm_num, by norm_num, by norm_num, ?_, ?_, ?_, ?_, ?_⟩ <;>
    norm_num [simulate_time_minutes, clamp01, pyRound3, roundHalfEven,
      default_variability]

/-- C7 amended: for valid inputs with the draw inside the variability
bounds, the race time model is nonnegative, and it is strictly positive
provided the distance is large enough relative to the largest possible
effective speed: `120000 * distance_km > max 50 (speed * hi * track_factor)`.
(Without that proviso the 3-decimal rounding can return exactly 0, as
`simulate_returns_zero_on_valid_input` shows.) -/
theorem simulate_time_pos_of_distance
    (speed durability acceleration track_factor : ℚ) (lo hi : ℚ)
    (distance_km rand : ℚ)
    (hs : 0 < speed) (htf : 0 < track_factor) (hdist : 0 < distance_km)
    (hlo : 0 < lo) (hr1 : lo ≤ rand) (hr2 : rand ≤ hi) :
    0 ≤ simulate_time_minutes speed durability acceleration track_factor
        (lo, hi) distance_km rand ∧
    (120000 * distance_km > max 50 (speed * hi * track_factor) →
      0 < simulate_time_minutes speed durability acceleration track_factor
          (lo, hi) distance_km rand) := by
  dsimp only [simulate_time_minutes]
  set pd := 1/2 + 1/2 * clamp01 durability with hpd_def
  set pa := 1/2 + 1/2 * clamp01 acceleration with hpa_def
  have hpd0 : 0 < pd := by have := clamp01_nonneg durability; rw [hpd_def]; linarith
  have hpa0 : 0 < pa := by have := clamp01_nonneg acceleration; rw [hpa_def]; linarith
  have hpd1 : pd ≤ 1 := by have := clamp01_le_one durability; rw [hpd_def]; linarith
  have hpa1 : pa ≤ 1 := by have := clamp01_le_one acceleration; rw [hpa_def]; linarith
  have hrand0 : 0 < rand := lt_of_lt_of_le hlo hr1
  set eff := max 50 (speed * pd * pa * rand * track_factor) with heff_def
  have heff50 : (50:ℚ) ≤ eff := le_max_left _ _
  have heff0 : (0:ℚ) < eff := by linarith
  constructor
  · apply pyRound3_nonneg
    have : 0 ≤ distance_km / eff := le_of_lt (div_pos hdist heff0)
    linarith
  · intro hbig
    apply pyRound3_pos
    set B := max 50 (speed * hi * track_factor) with hB_def
    have hB0 : (0:ℚ) < B := lt_of_lt_of_le (by norm_num) (le_max_left _ _)
    have hprod_le : speed * pd * pa * rand * track_factor ≤ speed * hi * track_factor := by
      have h1 : speed * pd ≤ speed := by nlinarith
      have h2 : speed * pd * pa ≤ speed := by nlinarith
      have h3 : speed * pd * pa * rand ≤ speed * hi := by
        have h4 : 0 ≤ speed * pd * pa := by positivity
        calc speed * pd * pa * rand ≤ speed * rand := by nlinarith
          _ ≤ speed * hi := by nlinarith
      exact mul_le_mul_of_nonneg_right h3 htf.le
    have heffB : eff ≤ B := by
      rw [heff_def, hB_def]
      exact max_le_max (le_refl 50) hprod_le
    have hfrac : 1/2 < 60000 * distance_km / B := by
      rw [lt_div_iff₀ hB0]
      linarith
    have hdivle : 60000 * distance_km / B ≤ 60000 * distance_km / eff := by
      apply div_le_div_of_nonneg_left (by linarith) heff0 heffB
    have heq : distance_km / eff * 60 = 60 * distance_km / eff := by ring
    rw [heq]
    have : 60 * distance_km / eff = (60000 * distance_km / eff) / 1000 := by
      field_simp
      ring
    rw [this]
    linarith

/-- Closed-input check for `simulate_time_pos_of_distance` (claim C7): at
speed 220, track factor 1, distance 100, bounds `(0.95, 1.05)` and draw 1,
the hypotheses hold and the theorem applies. -/
theorem simulate_time_pos_of_distance_check :
    (0:ℚ) < 220 ∧ (0:ℚ) < 1 ∧ (0:ℚ) < 100 ∧ (0:ℚ) < 19/20 ∧
      (19/20 : ℚ) ≤ 1 ∧ (1:ℚ) ≤ 21/20 ∧
      (0 ≤ simulate_time_minutes 220 (17/20) (9/10) 1 (19/20, 21/20) 100 1 ∧
        (120000 * (100:ℚ) > max 50 (220 * (21/20) * 1) →
          0 < simulate_time_minutes 220 (17/20) (9/10) 1 (19/20, 21/20) 100 1)) :=
  ⟨by norm_num, by norm_num, by norm_num, by norm_num, by norm_num, by norm_num,
    simulate_time_pos_of_distance 220 (17/20) (9/10) 1 (19/20) (21/20) 100 1
      (by norm_num) (by norm_num) (by norm_num) (by norm_num) (by norm_num) (by norm_num)⟩

/-- The core monotonicity step for the race time model: the finish time is
antitone in the effective-speed product (the floor at 50 and the rounding
are both monotone). -/
theorem simulate_core_antitone {d p1 p2 : ℚ} (hd : 0 < d) (hp : p1 ≤ p2) :
    pyRound3 (d / max 50 p2 * 60) ≤ pyRound3 (d / max 50 p1 * 60) := by
  have h1 : (0:ℚ) < max 50 p1 := lt_of_lt_of_le (by norm_num) (le_max_left _ _)
  have h2 : max 50 p1 ≤ max 50 p2 := max_le_max (le_refl 50) hp
  have h3 : d / max 50 p2 ≤ d / max 50 p1 :=
    div_le_div_of_nonneg_left hd.le h1 h2
  exact pyRound3_mono (by linarith)

/-- C6: with the random factor fixed, the race time model is monotonically
non-increasing in each of speed, durability, acceleration and track factor
separately (all other inputs held fixed, and positive where validity
requires it): a larger parameter never yields a strictly larger finish
time. -/
theorem simulate_time_minutes_antitone_each
    (variability : ℚ × ℚ) (distance_km rand : ℚ)
    (hdist : 0 < distance_km) (hrand : 0 < rand) :
    (∀ s1 s2 dur acc tf, 0 < tf → s1 ≤ s2 →
      simulate_time_minutes s2 dur acc tf variability distance_km rand ≤
        simulate_time_minutes s1 dur acc tf variability distance_km rand) ∧
    (∀ s dur1 dur2 acc tf, 0 < s → 0 < tf → dur1 ≤ dur2 →
      simulate_time_minutes s dur2 acc tf variability distance_km rand ≤
        simulate_time_minutes s dur1 acc tf variability distance_km rand) ∧
    (∀ s dur acc1 acc2 tf, 0 < s → 0 < tf → acc1 ≤ acc2 →
      simulate_time_minutes s dur acc2 tf variability distance_km rand ≤
        simulate_time_minutes s dur acc1 tf variability distance_km rand) ∧
    (∀ s dur acc tf1 tf2, 0 < s → tf1 ≤ tf2 →
      simulate_time_minutes s dur acc tf2 variability distance_km rand ≤
        simulate_time_minutes s dur acc tf1 variability distance_km rand) := by
  refine ⟨?_, ?_, ?_, ?_⟩
  · intro s1 s2 dur acc tf htf hs
    dsimp only [simulate_time_minutes]
    apply simulate_core_antitone hdist
    have h1 : 0 ≤ 1/2 + 1/2 * clamp01 dur := by have := clamp01_nonneg dur; linarith
    have h2 : 0 ≤ 1/2 + 1/2 * clamp01 acc := by have := clamp01_nonneg acc; linarith
    gcongr
  · intro s dur1 dur2 acc tf hs htf hdur
    dsimp only [simulate_time_minutes]
    apply simulate_core_antitone hdist
    have h0 : clamp01 dur1 ≤ clamp01 dur2 := clamp01_mono hdur
    have h1 : 0 ≤ 1/2 + 1/2 * clamp01 dur1 := by have := clamp01_nonneg dur1; linarith
    have h2 : 0 ≤ 1/2 + 1/2 * clamp01 acc := by have := clamp01_nonneg acc; linarith
    gcongr
  · intro s dur acc1 acc2 tf hs htf hacc
    dsimp only [simulate_time_minutes]
    apply simulate_core_antitone hdist
    have h0 : clamp01 acc1 ≤ clamp01 acc2 := clamp01_mono hacc
    have h1 : 0 ≤ 1/2 + 1/2 * clamp01 dur := by have := clamp01_nonneg dur; linarith
    have h2 : 0 ≤ 1/2 + 1/2 * clamp01 acc1 := by have := clamp01_nonneg acc1; linarith
    gcongr
  · intro s dur acc tf1 tf2 hs htf
    dsimp only [simulate_time_minutes]
    apply simulate_core_antitone hdist
    have h1 : 0 ≤ 1/2 + 1/2 * clamp01 dur := by have := clamp01_nonneg dur; linarith
    have h2 : 0 ≤ 1/2 + 1/2 * clamp01 acc := by have := clamp01_nonneg acc; linarith
    gcongr

/-- Closed-input check for `simulate_time_minutes_antitone_each` (claim
C6): at distance 100 and draw 1 the hypotheses hold, and (for example)
raising the base speed from 200 to 220 on an otherwise fixed car does not
increase the finish time. -/
theorem simulate_time_minutes_antitone_each_check :
    (0:ℚ) < 100 ∧ (0:ℚ) < 1 ∧ (0:ℚ) < 1 ∧ (200:ℚ) ≤ 220 ∧
      simulate_time_minutes 220 (17/20) (9/10) 1 default_variability 100 1 ≤
        simulate_time_minutes 200 (17/20) (9/10) 1 default_variability 100 1 :=
  ⟨by norm_num, by norm_num, by norm_num, by norm_num,
    (simulate_time_minutes_antitone_each default_variability 100 1
        (by norm_num) (by norm_num)).1 200 220 (17/20) (9/10) 1
      (by norm_num) (by norm_num)⟩

/-! ## Transaction scope invariants -/

/-- Running a statement while the `IN_TRANSACTION` flag is set only updates
the session view: nothing is committed and the flag is untouched. -/
theorem execute_in_transaction (w : Database → Database) (s : SnowflakeState)
    (h : s.in_transaction = true) : execute w s = { s with db := w s.db } := by
  simp [execute, h]

/-- `execute_many` behaves like `execute` while the flag is set. -/
theorem execute_many_in_transaction (w : Database → Database) (s : SnowflakeState)
    (h : s.in_transaction = true) : execute_many w s = { s with db := w s.db } := by
  simp [execute_many, h]

/-- The transaction scope always restores the `IN_TRANSACTION` flag to its
entry value, whatever the body did and whether or not it raised. -/
theorem withTransaction_restores_flag {ε : Type}
    (body : SnowflakeState → SnowflakeState × Option ε) (s : SnowflakeState) :
    (withTransaction body s).1.in_transaction = s.in_transaction := by
  rcases h : (body { s with in_transaction := true }).2 with _ | e <;>
    simp [withTransaction, h, Conn.commit, Conn.rollback]

/-- C10: the transaction scope commits on normal completion and rolls back
when the body raises; it never suppresses the exception (the body's error
is exactly what the scope reports); on exit it always restores the
`IN_TRANSACTION` flag to its entry value — in particular under nesting —
and while the flag is set `execute` and `execute_many` do not auto-commit. -/
theorem transaction_scope_spec {ε : Type}
    (body : SnowflakeState → SnowflakeState × Option ε) (s : SnowflakeState) :
    ((body { s with in_transaction := true }).2 = none →
      withTransaction body s =
        ({ Conn.commit (body { s with in_transaction := true }).1 with
            in_transaction := s.in_transaction }, none)) ∧
    (∀ e, (body { s with in_transaction := true }).2 = some e →
      withTransaction body s =
        ({ Conn.rollback (body { s with in_transaction := true }).1 with
            in_transaction := s.in_transaction }, some e)) ∧
    (withTransaction body s).2 = (body { s with in_transaction := true }).2 ∧
    (withTransaction body s).1.in_transaction = s.in_transaction ∧
    (∀ inner : SnowflakeState → SnowflakeState × Option ε,
      (withTransaction (fun t => withTransaction inner t) s).1.in_transaction
        = s.in_transaction) ∧
    (∀ w, s.in_transaction = true →
      (execute w s).committed = s.committed ∧
        (execute_many w s).committed = s.committed) := by
  refine ⟨?_, ?_, ?_, ?_, ?_, ?_⟩
  · intro h
    simp [withTransaction, h]
  · intro e h
    simp [withTransaction, h]
  · rcases h : (body { s with in_transaction := true }).2 with _ | e <;>
      simp [withTransaction, h]
  · exact withTransaction_restores_flag body s
  · intro inner
    exact withTransaction_restores_flag (fun t => withTransaction inner t) s
  · intro w h
    rw [execute_in_transaction w s h, execute_many_in_transaction w s h]
    exact ⟨rfl, rfl⟩

/-- Closed-input check for `transaction_scope_spec` (claim C10): with an
empty database, a body that raises a persistence failure after a write
leaves the committed state untouched, the error propagates, and the flag
is restored. -/
theorem transaction_scope_spec_check :
    (withTransaction (fun t =>
        (insert_race_results 1 [(1, 2, 1)] t, some RallyError.persistenceFailure))
      { db := ⟨[], [], [], []⟩, committed := ⟨[], [], [], []⟩, in_transaction := false }).2
      = some RallyError.persistenceFailure := by
  have h := (transaction_scope_spec
    (fun t => (insert_race_results 1 [(1, 2, 1)] t, some RallyError.persistenceFailure))
    { db := ⟨[], [], [], []⟩, committed := ⟨[], [], [], []⟩, in_transaction := false }).2.2.1
  rw [h]

/-! ## Empty roster (claim C8) -/

/-- C8: starting a race with an empty roster aborts with the empty-roster
condition and leaves the whole state — teams, races, race results,
budgets, committed state and flag — exactly unchanged; no race row is
created and no budget is modified. -/
theorem racePage_empty_roster (track_name : String) (track_factor fee prize : ℚ)
    (randf : Car → ℚ) (failAt : Option FailPoint) (s : SnowflakeState)
    (h : s.db.cars = []) :
    racePage track_name track_factor fee prize randf failAt s =
      { state := s, race_id := 0, err := some RallyError.emptyRoster } := by
  simp [racePage, h]

/-- Closed-input check for `racePage_empty_roster` (claim C8): one team,
no cars. -/
theorem racePage_empty_roster_check :
    racePage "Asphalt Sprint" 1 1000 5000 (fun _ => 1) none
        { db := ⟨[⟨1, "T1", "Alice", 10000⟩], [], [], []⟩,
          committed := ⟨[⟨1, "T1", "Alice", 10000⟩], [], [], []⟩,
          in_transaction := false } =
      { state := { db := ⟨[⟨1, "T1", "Alice", 10000⟩], [], [], []⟩,
                   committed := ⟨[⟨1, "T1", "Alice", 10000⟩], [], [], []⟩,
                   in_transaction := false },
        race_id := 0, err := some RallyError.emptyRoster } :=
  racePage_empty_roster "Asphalt Sprint" 1 1000 5000 (fun _ => 1) none _ rfl

/-! ## The race id read back by `create_race` -/

/-- Every member of a list is bounded by `listMaxInt`. -/
theorem le_listMaxInt {xs : List ℤ} {x : ℤ} (hx : x ∈ xs) :
    ∃ m, listMaxInt xs = some m ∧ x ≤ m := by
  induction xs with
  | nil => cases hx
  | cons a as ih =>
    rcases List.mem_cons.mp hx with rfl | hmem
    · cases has : listMaxInt as with
      | none => exact ⟨x, by simp [listMaxInt, has], le_refl x⟩
      | some m => exact ⟨max x m, by simp [listMaxInt, has], le_max_left x m⟩
    · obtain ⟨m, hm, hle⟩ := ih hmem
      cases has : listMaxInt as with
      | none => rw [has] at hm; cases hm
      | some m2 =>
        rw [has] at hm
        cases hm
        exact ⟨max a m, by simp [listMaxInt, has], le_trans hle (le_max_right a m)⟩

/-- Unfolding lemma for `listMaxInt` on a nonempty list. -/
theorem listMaxInt_cons (x : ℤ) (xs : List ℤ) :
    listMaxInt (x :: xs) =
      match listMaxInt xs with
      | none => some x
      | some m => some (max x m) := rfl

/-- Appending a new upper bound makes it the maximum. -/
theorem listMaxInt_append_ub {xs : List ℤ} {y : ℤ} (h : ∀ x ∈ xs, x ≤ y) :
    listMaxInt (xs ++ [y]) = some y := by
  induction xs with
  | nil => simp [listMaxInt]
  | cons a as ih =>
    have ha : a ≤ y := h a (List.mem_cons_self a as)
    have hih := ih (fun x hx => h x (List.mem_cons_of_mem a hx))
    rw [List.cons_append, listMaxInt_cons, hih]
    simp [max_eq_right ha]

/-- Existing race ids are strictly below the next identity value. -/
theorem race_id_lt_nextRaceId {db : Database} {r : Race} (hr : r ∈ db.races) :
    r.race_id < nextRaceId db := by
  have hmem : r.race_id ∈ db.races.map Race.race_id := List.mem_map_of_mem Race.race_id hr
  obtain ⟨m, hm, hle⟩ := le_listMaxInt hmem
  unfold nextRaceId
  rw [hm]
  simp only [Option.getD_some]
  omega

/-- What `create_race` does outside a transaction: it commits the new
`RACES` row and returns its (fresh) id. -/
theorem create_race_spec (track_name : String) (s : SnowflakeState)
    (h : s.in_transaction = false) :
    create_race track_name s =
      ({ db := { s.db with races := s.db.races ++ [⟨nextRaceId s.db, track_name, none⟩] },
         committed := { s.db with races := s.db.races ++ [⟨nextRaceId s.db, track_name, none⟩] },
         in_transaction := false },
       some (nextRaceId s.db)) := by
  have hub : ∀ x ∈ s.db.races.map Race.race_id, x ≤ nextRaceId s.db := by
    intro x hx
    obtain ⟨r, hr, rfl⟩ := List.mem_map.mp hx
    exact le_of_lt (race_id_lt_nextRaceId hr)
  unfold create_race
  simp only [execute, h, Conn.commit, Bool.false_eq_true, if_false, Prod.mk.injEq]
  refine ⟨trivial, ?_⟩
  rw [show ({ s.db with races := s.db.races ++ [⟨nextRaceId s.db, track_name, none⟩] } : Database).races.map Race.race_id
      = s.db.races.map Race.race_id ++ [nextRaceId s.db] by simp]
  exact listMaxInt_append_ub hub

/-! ## The settlement transaction body -/

/-- Inside the transaction (flag set), a failing settlement body reports
the persistence failure, leaves the committed state untouched (no
operation before the failure point auto-commits), and keeps the flag. -/
theorem settlementBody_fail (race_id winner payload fee prize)
    (fp : FailPoint) (t : SnowflakeState) (h : t.in_transaction = true) :
    (settlementBody race_id winner payload fee prize (some fp) t).1.committed = t.committed ∧
    (settlementBody race_id winner payload fee prize (some fp) t).1.in_transaction = true ∧
    (settlementBody race_id winner payload fee prize (some fp) t).2
      = some RallyError.persistenceFailure := by
  cases fp <;>
    simp [settlementBody, insert_race_results, set_race_winner,
      pay_participation_fee_for_all_teams_with_cars, credit_winner_prize,
      execute, execute_many, h]

/-- Inside the transaction, the successful settlement body applies the four
database effects in order and reports no error. -/
theorem settlementBody_success (race_id winner payload fee prize)
    (t : SnowflakeState) (h : t.in_transaction = true) :
    settlementBody race_id winner payload fee prize none t =
      ({ t with db := creditDb winner prize (payFeeDb fee
          (setWinnerDb race_id winner (insertResultsDb race_id payload t.db))) }, none) := by
  simp [settlementBody, insert_race_results, set_race_winner,
    pay_participation_fee_for_all_teams_with_cars, credit_winner_prize,
    execute, execute_many, h]

/-- Transaction scope, error case (helper): if the body raises, the scope
rolls back, restores the flag, and re-raises. -/
theorem withTransaction_of_err {ε : Type} (body : SnowflakeState → SnowflakeState × Option ε)
    (s : SnowflakeState) (e : ε)
    (h : (body { s with in_transaction := true }).2 = some e) :
    withTransaction body s =
      ({ Conn.rollback (body { s with in_transaction := true }).1 with
          in_transaction := s.in_transaction }, some e) := by
  simp [withTransaction, h]

/-- Transaction scope, success case (helper): if the body completes, the
scope commits and restores the flag. -/
theorem withTransaction_of_ok {ε : Type} (body : SnowflakeState → SnowflakeState × Option ε)
    (s : SnowflakeState)
    (h : (body { s with in_transaction := true }).2 = none) :
    withTransaction body s =
      ({ Conn.commit (body { s with in_transaction := true }).1 with
          in_transaction := s.in_transaction }, none) := by
  simp [withTransaction, h]

/-- Reduction of the race page on a nonempty roster outside a transaction:
the race row is created and committed, and the grouped operations run
inside the transaction scope against that committed state. -/
theorem racePage_eq (track_name : String) (track_factor fee prize : ℚ)
    (randf : Car → ℚ) (failAt : Option FailPoint) (s : SnowflakeState)
    (hTx : s.in_transaction = false) (hcars : s.db.cars ≠ []) :
    racePage track_name track_factor fee prize randf failAt s =
      (let rid := nextRaceId s.db
       let db1 : Database := { s.db with races := s.db.races ++ [⟨rid, track_name, none⟩] }
       let rows_sorted := sortRows (computeRows s.db.teams s.db.cars track_factor randf)
       let q := withTransaction
          (settlementBody rid rows_sorted.headI.team_id (results_payload rows_sorted)
            fee prize failAt)
          { db := db1, committed := db1, in_transaction := false }
       { state := q.1, race_id := rid, err := q.2 }) := by
  have hne : ¬ (s.db.cars.isEmpty = true) := by
    simp only [List.isEmpty_iff]
    exact hcars
  simp only [racePage, hne, if_false, create_race_spec track_name s hTx, Option.getD_some]
  simp

/-! ## Rollback of a failed settlement (claim C1) -/

/-- C1 amended: if any of the four grouped persistence operations fails,
the transaction rollback undoes everything the group did — the caller
observes no RaceResult rows, no winner set, and unchanged team budgets —
but the Race row created in step 2 persists with a null winner, because
`create_race` ran and auto-committed before the transaction began. -/
theorem racePage_failure_rollback (track_name : String) (track_factor fee prize : ℚ)
    (randf : Car → ℚ) (fp : FailPoint) (s : SnowflakeState)
    (hTx : s.in_transaction = false) (hcars : s.db.cars ≠ []) :
    (racePage track_name track_factor fee prize randf (some fp) s).err
        = some RallyError.persistenceFailure ∧
    (racePage track_name track_factor fee prize randf (some fp) s).state.db
        = { s.db with races := s.db.races ++ [⟨nextRaceId s.db, track_name, none⟩] } ∧
    (racePage track_name track_factor fee prize randf (some fp) s).state.committed
        = { s.db with races := s.db.races ++ [⟨nextRaceId s.db, track_name, none⟩] } ∧
    (racePage track_name track_factor fee prize randf (some fp) s).state.in_transaction
        = false := by
  rw [racePage_eq track_name track_factor fee prize randf (some fp) s hTx hcars]
  dsimp only
  rw [withTransaction_of_err _ _ _ (settlementBody_fail _ _ _ fee prize fp _ rfl).2.2]
  have hcommitted := (settlementBody_fail (nextRaceId s.db)
      (sortRows (computeRows s.db.teams s.db.cars track_factor randf)).headI.team_id
      (results_payload (sortRows (computeRows s.db.teams s.db.cars track_factor randf)))
      fee prize fp
      { db := { s.db with races := s.db.races ++ [⟨nextRaceId s.db, track_name, none⟩] },
        committed := { s.db with races := s.db.races ++ [⟨nextRaceId s.db, track_name, none⟩] },
        in_transaction := true } rfl).1
  refine ⟨rfl, ?_, ?_, rfl⟩ <;> simp [Conn.rollback] <;> exact hcommitted

/-- Sample teams and cars from the spec's test scenario: CarA (speed 220,
durability 0.85, acceleration 0.90) owned by T1; CarB (speed 200, 0.80,
0.80) owned by T2. -/
def sampleTeam1 : Team := ⟨1, "T1", "Alice,Bob", 10000⟩

/-- Second sample team. -/
def sampleTeam2 : Team := ⟨2, "T2", "Cara", 8000⟩

/-- Sample car A, owned by team 1. -/
def sampleCarA : Car := ⟨1, "CarA", 1, 220, 17/20, 9/10⟩

/-- Sample car B, owned by team 2. -/
def sampleCarB : Car := ⟨2, "CarB", 2, 200, 4/5, 4/5⟩

/-- Sample database: two teams, two cars, no races yet. -/
def sampleDb : Database := ⟨[sampleTeam1, sampleTeam2], [sampleCarA, sampleCarB], [], []⟩

/-- Sample session state over `sampleDb`, outside any transaction. -/
def sampleState : SnowflakeState := ⟨sampleDb, sampleDb, false⟩

/-- C1 counterexample: with a persistence failure injected at
`credit_winner_prize` (the last grouped operation), the caller does
observe a new Race row after the rollback — the race table went from
empty to holding the race created in step 2 — contradicting the claim
that the whole race attempt, including the Race record, is undone. -/
theorem racePage_failure_race_row_survives :
    sampleState.db.races = [] ∧
    (racePage "Asphalt Sprint" 1 1000 5000 (fun _ => 1)
        (some FailPoint.atCreditPrize) sampleState).state.db.races
      = [⟨1, "Asphalt Sprint", none⟩] := by
  constructor
  · rfl
  · simp [racePage, sampleState, sampleDb, create_race, execute, execute_many,
      nextRaceId, listMaxInt, withTransaction, settlementBody,
      insert_race_results, set_race_winner,
      pay_participation_fee_for_all_teams_with_cars, credit_winner_prize,
      Conn.commit, Conn.rollback, setWinnerDb, insertResultsDb, payFeeDb, creditDb]

/-- Closed-input check for `racePage_failure_rollback` (claim C1): the
hypotheses hold at `sampleState`, and the rollback conclusion follows by
the theorem. -/
theorem racePage_failure_rollback_check :
    sampleState.in_transaction = false ∧ sampleState.db.cars ≠ [] ∧
    ((racePage "Asphalt Sprint" 1 1000 5000 (fun _ => 1)
        (some FailPoint.atCreditPrize) sampleState).err
        = some RallyError.persistenceFailure ∧
      (racePage "Asphalt Sprint" 1 1000 5000 (fun _ => 1)
          (some FailPoint.atCreditPrize) sampleState).state.db
        = { sampleState.db with races :=
            sampleState.db.races ++ [⟨nextRaceId sampleState.db, "Asphalt Sprint", none⟩] } ∧
      (racePage "Asphalt Sprint" 1 1000 5000 (fun _ => 1)
          (some FailPoint.atCreditPrize) sampleState).state.committed
        = { sampleState.db with races :=
            sampleState.db.races ++ [⟨nextRaceId sampleState.db, "Asphalt Sprint", none⟩] } ∧
      (racePage "Asphalt Sprint" 1 1000 5000 (fun _ => 1)
          (some FailPoint.atCreditPrize) sampleState).state.in_transaction = false) :=
  ⟨rfl, by simp [sampleState, sampleDb],
    racePage_failure_rollback "Asphalt Sprint" 1 1000 5000 (fun _ => 1)
      FailPoint.atCreditPrize sampleState rfl (by simp [sampleState, sampleDb])⟩

/-- The final database of a successful settlement on database `db`: the
committed race row followed by the four grouped effects, as the race page
issues them. -/
def settledDb (track_name : String) (track_factor fee prize : ℚ)
    (randf : Car → ℚ) (db : Database) : Database :=
  let rid := nextRaceId db
  let rows_sorted := sortRows (computeRows db.teams db.cars track_factor randf)
  let winner := rows_sorted.headI.team_id
  creditDb winner prize (payFeeDb fee (setWinnerDb rid winner
    (insertResultsDb rid (results_payload rows_sorted)
      { db with races := db.races ++ [⟨rid, track_name, none⟩] })))

/-- Reduction of a fully successful race page run: the outcome commits
`settledDb`, returns the new race id, and reports no error. -/
theorem racePage_success_eq (track_name : String) (track_factor fee prize : ℚ)
    (randf : Car → ℚ) (s : SnowflakeState)
    (hTx : s.in_transaction = false) (hcars : s.db.cars ≠ []) :
    racePage track_name track_factor fee prize randf none s =
      { state :=
          { db := settledDb track_name track_factor fee prize randf s.db,
            committed := settledDb track_name track_factor fee prize randf s.db,
            in_transaction := false },
        race_id := nextRaceId s.db,
        err := none } := by
  rw [racePage_eq track_name track_factor fee prize randf none s hTx hcars]
  dsimp only
  have hbody := settlementBody_success (nextRaceId s.db)
      (sortRows (computeRows s.db.teams s.db.cars track_factor randf)).headI.team_id
      (results_payload (sortRows (computeRows s.db.teams s.db.cars track_factor randf)))
      fee prize
      { db := { s.db with races := s.db.races ++ [⟨nextRaceId s.db, track_name, none⟩] },
        committed := { s.db with races := s.db.races ++ [⟨nextRaceId s.db, track_name, none⟩] },
        in_transaction := true } rfl
  rw [withTransaction_of_ok _ _ (by rw [hbody])]
  simp [hbody, Conn.commit, settledDb]

/-! ## Budget conservation (claim C3) -/

/-- Total budget over a list of team rows. -/
def sumBudgets (l : List Team) : ℚ := (l.map Team.budget).sum

set_option linter.unusedTactic false in
/-- Debiting `fee` from the teams satisfying `p` lowers the total budget by
`fee` times the number of such teams. -/
theorem sumBudgets_map_sub (l : List Team) (p : Team → Prop) [DecidablePred p] (fee : ℚ) :
    sumBudgets (l.map (fun t => if p t then { t with budget := t.budget - fee } else t))
      = sumBudgets l - fee * l.countP (fun t => decide (p t)) := by
  induction l with
  | nil => simp [sumBudgets]
  | cons a as ih =>
    by_cases h : p a <;>
      simp [sumBudgets, h, List.countP_cons, ih] at ih ⊢ <;>
      push_cast <;> linarith

set_option linter.unusedTactic false in
/-- Crediting `amount` to the teams satisfying `p` raises the total budget
by `amount` times the number of such teams. -/
theorem sumBudgets_map_add (l : List Team) (p : Team → Prop) [DecidablePred p] (amount : ℚ) :
    sumBudgets (l.map (fun t => if p t then { t with budget := t.budget + amount } else t))
      = sumBudgets l + amount * l.countP (fun t => decide (p t)) := by
  induction l with
  | nil => simp [sumBudgets]
  | cons a as ih =>
    by_cases h : p a <;>
      simp [sumBudgets, h, List.countP_cons, ih] at ih ⊢ <;>
      push_cast <;> linarith

/-- On a duplicate-free list of ids, the number of members of `cs` equals
the number of distinct values in `cs`, provided `cs` draws from the list. -/
theorem countP_mem_eq_dedup_length {ids cs : List ℤ} (hnd : ids.Nodup)
    (hsub : ∀ x ∈ cs, x ∈ ids) :
    ids.countP (fun x => decide (x ∈ cs)) = cs.dedup.length := by
  rw [List.countP_eq_length_filter]
  have h1 : (ids.filter (fun x => decide (x ∈ cs))).Nodup := hnd.filter _
  have h2 : cs.dedup.Nodup := List.nodup_dedup cs
  have hperm := (List.perm_ext_iff_of_nodup h1 h2).mpr (by
    intro a
    simp only [List.mem_filter, List.mem_dedup, decide_eq_true_eq]
    exact ⟨fun h => h.2, fun h => ⟨hsub a h, h⟩⟩)
  exact hperm.length_eq

/-- On a duplicate-free list of ids, exactly one entry equals a member. -/
theorem countP_eq_one_of_nodup {ids : List ℤ} {w : ℤ} (hnd : ids.Nodup) (hw : w ∈ ids) :
    ids.countP (fun x => decide (x = w)) = 1 := by
  have h1 : ids.countP (fun x => decide (x = w)) = ids.count w := by
    apply List.countP_congr
    intro a _
    simp [beq_iff_eq]
  rw [h1]
  exact List.count_eq_one_of_mem hnd hw

/-- A nonempty list contains its `headI`. -/
theorem headI_mem_of_ne_nil {α : Type} [Inhabited α] {l : List α} (h : l ≠ []) :
    l.headI ∈ l := by
  cases l with
  | nil => exact absurd rfl h
  | cons a t => exact List.mem_cons_self a t

/-- Sorting does not change membership. -/
theorem mem_sortRows {rows : List RaceRow} {r : RaceRow} :
    r ∈ sortRows rows ↔ r ∈ rows := by
  simp [sortRows]

/-- Sorting does not change emptiness. -/
theorem sortRows_ne_nil {rows : List RaceRow} (h : rows ≠ []) : sortRows rows ≠ [] := by
  intro hcon
  apply h
  have hlen := congrArg List.length hcon
  simp only [sortRows, List.length_mergeSort, List.length_nil] at hlen
  exact List.length_eq_zero.mp hlen

/-- The winning team of a nonempty roster is the owner of some roster car. -/
theorem winner_team_mem_cars (teams : List Team) (cars : List Car)
    (track_factor : ℚ) (randf : Car → ℚ) (hcars : cars ≠ []) :
    ∃ c ∈ cars,
      (sortRows (computeRows teams cars track_factor randf)).headI.team_id = c.team_id ∧
      (sortRows (computeRows teams cars track_factor randf)).headI.car_id = c.car_id := by
  have hrows : computeRows teams cars track_factor randf ≠ [] := by
    simp [computeRows, hcars]
  have hmem := headI_mem_of_ne_nil (sortRows_ne_nil hrows)
  rw [mem_sortRows] at hmem
  obtain ⟨c, hc, hrow⟩ := List.mem_map.mp hmem
  exact ⟨c, hc, by rw [← hrow], by rw [← hrow]⟩

/-- C3: after a successful settlement, the total change of team budgets
equals `prize - fee * (number of distinct teams owning raced cars)` —
every team owning at least one roster car is debited the fee once, and
the winning team (which owns a roster car) is credited the prize once. -/
theorem settlement_budget_conservation (track_name : String)
    (track_factor fee prize : ℚ) (randf : Car → ℚ) (s : SnowflakeState)
    (hTx : s.in_transaction = false) (hcars : s.db.cars ≠ [])
    (hnd : (s.db.teams.map Team.team_id).Nodup)
    (hmem : ∀ c ∈ s.db.cars, c.team_id ∈ s.db.teams.map Team.team_id) :
    sumBudgets (racePage track_name track_factor fee prize randf none s).state.db.teams
      = sumBudgets s.db.teams
        + (prize - fee * ((s.db.cars.map Car.team_id).dedup).length) := by
  rw [racePage_success_eq track_name track_factor fee prize randf s hTx hcars]
  obtain ⟨cw, hcw, hcwteam, -⟩ :=
    winner_team_mem_cars s.db.teams s.db.cars track_factor randf hcars
  have hwmem : (sortRows (computeRows s.db.teams s.db.cars track_factor randf)).headI.team_id
      ∈ s.db.teams.map Team.team_id := by
    rw [hcwteam]
    exact hmem cw hcw
  dsimp only [settledDb, creditDb, payFeeDb, setWinnerDb, insertResultsDb]
  rw [sumBudgets_map_add _ (fun t =>
      t.team_id = (sortRows (computeRows s.db.teams s.db.cars track_factor randf)).headI.team_id) prize]
  rw [sumBudgets_map_sub _ (fun t => t.team_id ∈ s.db.cars.map Car.team_id) fee]
  have hfee : (s.db.teams.countP
      (fun t => decide (t.team_id ∈ s.db.cars.map Car.team_id)) : ℚ)
      = (((s.db.cars.map Car.team_id).dedup).length : ℚ) := by
    have hsub : ∀ x ∈ s.db.cars.map Car.team_id, x ∈ s.db.teams.map Team.team_id := by
      intro x hx
      obtain ⟨c, hc, rfl⟩ := List.mem_map.mp hx
      exact hmem c hc
    have := countP_mem_eq_dedup_length hnd hsub
    rw [← this, List.countP_map]
    norm_cast
  have hwin : (((s.db.teams.map (fun t =>
        if t.team_id ∈ s.db.cars.map Car.team_id
        then { t with budget := t.budget - fee } else t)).countP
      (fun t => decide (t.team_id
        = (sortRows (computeRows s.db.teams s.db.cars track_factor randf)).headI.team_id))) : ℚ)
      = 1 := by
    have hpres : ((s.db.teams.map (fun t =>
        if t.team_id ∈ s.db.cars.map Car.team_id
        then { t with budget := t.budget - fee } else t)).map Team.team_id)
        = s.db.teams.map Team.team_id := by
      rw [List.map_map]
      apply List.map_congr_left
      intro t _
      simp only [Function.comp_apply]
      split_ifs <;> rfl
    have hnd2 : ((s.db.teams.map (fun t =>
        if t.team_id ∈ s.db.cars.map Car.team_id
        then { t with budget := t.budget - fee } else t)).map Team.team_id).Nodup :=
      hpres ▸ hnd
    have hwmem2 : (sortRows (computeRows s.db.teams s.db.cars track_factor randf)).headI.team_id
        ∈ (s.db.teams.map (fun t =>
          if t.team_id ∈ s.db.cars.map Car.team_id
          then { t with budget := t.budget - fee } else t)).map Team.team_id :=
      hpres ▸ hwmem
    have h2 := countP_eq_one_of_nodup hnd2 hwmem2
    rw [List.countP_map] at h2
    simp only [Function.comp_def] at h2
    exact_mod_cast h2
  rw [hfee, hwin]
  ring

/-- Closed-input check for `settlement_budget_conservation` (claim C3): on
the two-team, two-car sample state the hypotheses hold and the theorem
applies with fee 1000 and prize 5000. -/
theorem settlement_budget_conservation_check :
    sampleState.in_transaction = false ∧ sampleState.db.cars ≠ [] ∧
    (sampleState.db.teams.map Team.team_id).Nodup ∧
    (∀ c ∈ sampleState.db.cars, c.team_id ∈ sampleState.db.teams.map Team.team_id) ∧
    sumBudgets (racePage "Asphalt Sprint" 1 1000 5000 (fun _ => 1)
        none sampleState).state.db.teams
      = sumBudgets sampleState.db.teams
        + (5000 - 1000 * ((sampleState.db.cars.map Car.team_id).dedup).length) :=
  ⟨rfl, by simp [sampleState, sampleDb],
    by simp [sampleState, sampleDb, sampleTeam1, sampleTeam2],
    by
      intro c hc
      simp only [sampleState, sampleDb, List.mem_cons, List.not_mem_nil, or_false] at hc
      rcases hc with rfl | rfl <;>
        simp [sampleState, sampleDb, sampleTeam1, sampleTeam2, sampleCarA, sampleCarB],
    settlement_budget_conservation "Asphalt Sprint" 1 1000 5000 (fun _ => 1) sampleState
      rfl (by simp [sampleState, sampleDb])
      (by simp [sampleState, sampleDb, sampleTeam1, sampleTeam2])
      (by
        intro c hc
        simp only [sampleState, sampleDb, List.mem_cons, List.not_mem_nil, or_false] at hc
        rcases hc with rfl | rfl <;>
          simp [sampleState, sampleDb, sampleTeam1, sampleTeam2, sampleCarA, sampleCarB])⟩

/-! ## Ranking and positions (claim C4) -/

/-- The time comparison is transitive. -/
theorem timeLE_trans (a b c : RaceRow) (hab : timeLE a b) (hbc : timeLE b c) :
    timeLE a c := by
  simp only [timeLE, decide_eq_true_eq] at *
  exact le_trans hab hbc

/-- The time comparison is total. -/
theorem timeLE_total (a b : RaceRow) : timeLE a b || timeLE b a := by
  simp only [timeLE]
  rcases le_total a.time_min b.time_min with h | h <;> simp [h]

/-- Stability of the sort, per tie class: the rows holding any fixed time
value appear in `sortRows rows` in exactly the order they had in `rows`. -/
theorem sortRows_filter_time (rows : List RaceRow) (v : ℚ) :
    (sortRows rows).filter (fun r => decide (r.time_min = v))
      = rows.filter (fun r => decide (r.time_min = v)) := by
  set p : RaceRow → Bool := fun r => decide (r.time_min = v) with hp
  have hsub : List.Sublist (rows.filter p) rows := List.filter_sublist rows
  have hpair : (rows.filter p).Pairwise (fun a b => timeLE a b = true) := by
    apply List.pairwise_of_forall_mem_list
    intro a ha b hb
    have ha2 := (List.mem_filter.mp ha).2
    have hb2 := (List.mem_filter.mp hb).2
    rw [hp] at ha2 hb2
    simp only [decide_eq_true_eq] at ha2 hb2
    simp [timeLE, ha2, hb2]
  have h1 : List.Sublist (rows.filter p) (sortRows rows) :=
    List.sublist_mergeSort timeLE_trans timeLE_total hpair hsub
  have h2 : List.Sublist (rows.filter p) ((sortRows rows).filter p) := by
    have h3 := h1.filter p
    rwa [List.filter_filter, show ((fun a => p a && p a) = p) from by
      funext a; cases p a <;> rfl] at h3
  have hlen : ((sortRows rows).filter p).length = (rows.filter p).length := by
    rw [← List.countP_eq_length_filter, ← List.countP_eq_length_filter]
    exact (List.mergeSort_perm rows timeLE).countP_eq p
  exact ((h2.eq_of_length hlen.symm).symm)

/-- C4: a successful settlement on a roster of `N` cars appends exactly
`N` RaceResult rows; their positions are exactly `1..N` in order (so a
duplicate-free contiguous range); the rows are listed in ascending order
of computed finish time; and within every class of tied times the cars
appear in roster order (stable ties: the first-seen car gets the lower
position). -/
theorem settlement_results_positions (track_name : String)
    (track_factor fee prize : ℚ) (randf : Car → ℚ) (s : SnowflakeState)
    (hTx : s.in_transaction = false) (hcars : s.db.cars ≠ []) :
    (racePage track_name track_factor fee prize randf none s).state.db.race_results
        = s.db.race_results ++
          ((racePage track_name track_factor fee prize randf none s).state.db.race_results.drop
            s.db.race_results.length) ∧
    ((racePage track_name track_factor fee prize randf none s).state.db.race_results.drop
        s.db.race_results.length).length = s.db.cars.length ∧
    ((racePage track_name track_factor fee prize randf none s).state.db.race_results.drop
        s.db.race_results.length).map RaceResult.position
      = (List.range s.db.cars.length).map (fun i : ℕ => (i : ℤ) + 1) ∧
    ((racePage track_name track_factor fee prize randf none s).state.db.race_results.drop
        s.db.race_results.length).Pairwise (fun a b => a.time_taken ≤ b.time_taken) ∧
    ∀ v : ℚ,
      (((racePage track_name track_factor fee prize randf none s).state.db.race_results.drop
          s.db.race_results.length).filter
            (fun r => decide (r.time_taken = v))).map RaceResult.car_id
        = (s.db.cars.filter
            (fun c => decide (carTime track_factor randf c = v))).map Car.car_id := by
  rw [racePage_success_eq track_name track_factor fee prize randf s hTx hcars]
  dsimp only
  have hres : (settledDb track_name track_factor fee prize randf s.db).race_results
      = s.db.race_results ++
        (results_payload (sortRows (computeRows s.db.teams s.db.cars track_factor randf))).map
          (fun t => (⟨nextRaceId s.db, t.1, t.2.1, t.2.2⟩ : RaceResult)) := by
    simp [settledDb, creditDb, payFeeDb, setWinnerDb, insertResultsDb]
  rw [hres, List.drop_left]
  set sorted := sortRows (computeRows s.db.teams s.db.cars track_factor randf) with hsorted_def
  set P := (results_payload sorted).map
    (fun t => (⟨nextRaceId s.db, t.1, t.2.1, t.2.2⟩ : RaceResult)) with hP_def
  have hlen_sorted : sorted.length = s.db.cars.length := by
    simp [hsorted_def, sortRows, computeRows]
  have hPlen : P.length = s.db.cars.length := by
    simp [hP_def, results_payload, hlen_sorted]
  have htimes : P.map RaceResult.time_taken = sorted.map RaceRow.time_min := by
    rw [hP_def, results_payload, List.map_map, List.map_map]
    rw [show ((RaceResult.time_taken ∘ fun t => (⟨nextRaceId s.db, t.1, t.2.1, t.2.2⟩ : RaceResult))
        ∘ fun p : ℕ × RaceRow => (p.2.car_id, p.2.time_min, (p.1 : ℤ) + 1))
        = (RaceRow.time_min ∘ Prod.snd) from rfl]
    rw [← List.map_map, List.enum_map_snd]
  have hsorted_pairwise : sorted.Pairwise (fun a b => a.time_min ≤ b.time_min) := by
    have h : sorted.Pairwise (fun a b => timeLE a b = true) :=
      List.sorted_mergeSort timeLE_trans timeLE_total
        (computeRows s.db.teams s.db.cars track_factor randf)
    exact h.imp (by intro a b hab; simpa [timeLE] using hab)
  refine ⟨rfl, hPlen, ?_, ?_, ?_⟩
  · rw [hP_def, results_payload, List.map_map, List.map_map]
    rw [show ((RaceResult.position ∘ fun t => (⟨nextRaceId s.db, t.1, t.2.1, t.2.2⟩ : RaceResult))
        ∘ fun p : ℕ × RaceRow => (p.2.car_id, p.2.time_min, (p.1 : ℤ) + 1))
        = ((fun i : ℕ => (i : ℤ) + 1) ∘ Prod.fst) from rfl]
    rw [← List.map_map, List.enum_map_fst, hlen_sorted]
  · have h1 : (P.map RaceResult.time_taken).Pairwise (fun a b => a ≤ b) := by
      rw [htimes]
      exact (List.pairwise_map).mpr hsorted_pairwise
    have h2 := (List.pairwise_map).mp h1
    exact h2
  · intro v
    have step1 : P.filter (fun r => decide (r.time_taken = v))
        = ((sorted.enum.filter (fun p => decide (p.2.time_min = v))).map
            (fun p : ℕ × RaceRow => (p.2.car_id, p.2.time_min, (p.1 : ℤ) + 1))).map
          (fun t => (⟨nextRaceId s.db, t.1, t.2.1, t.2.2⟩ : RaceResult)) := by
      rw [hP_def, results_payload, List.map_map, List.filter_map]
      rw [List.map_map]
      rfl
    rw [step1, List.map_map, List.map_map]
    have step2 : (sorted.enum.filter (fun p => decide (p.2.time_min = v))).map
        ((RaceResult.car_id ∘ fun t => (⟨nextRaceId s.db, t.1, t.2.1, t.2.2⟩ : RaceResult))
          ∘ fun p : ℕ × RaceRow => (p.2.car_id, p.2.time_min, (p.1 : ℤ) + 1))
        = ((sorted.enum.map Prod.snd).filter (fun r => decide (r.time_min = v))).map
            RaceRow.car_id := by
      rw [List.filter_map, List.map_map]
      rfl
    rw [step2, List.enum_map_snd, hsorted_def, sortRows_filter_time, computeRows,
      List.filter_map, List.map_map]
    rfl

/-- Closed-input check for `settlement_results_positions` (claim C4): the
hypotheses hold on the two-car sample state and the theorem applies. -/
theorem settlement_results_positions_check :
    sampleState.in_transaction = false ∧ sampleState.db.cars ≠ [] ∧
    ((racePage "Asphalt Sprint" 1 1000 5000 (fun _ => 1) none sampleState).state.db.race_results
        = sampleState.db.race_results ++
          ((racePage "Asphalt Sprint" 1 1000 5000 (fun _ => 1) none
              sampleState).state.db.race_results.drop
            sampleState.db.race_results.length) ∧
      ((racePage "Asphalt Sprint" 1 1000 5000 (fun _ => 1) none
          sampleState).state.db.race_results.drop
          sampleState.db.race_results.length).length = sampleState.db.cars.length ∧
      ((racePage "Asphalt Sprint" 1 1000 5000 (fun _ => 1) none
          sampleState).state.db.race_results.drop
          sampleState.db.race_results.length).map RaceResult.position
        = (List.range sampleState.db.cars.length).map (fun i : ℕ => (i : ℤ) + 1) ∧
      ((racePage "Asphalt Sprint" 1 1000 5000 (fun _ => 1) none
          sampleState).state.db.race_results.drop
          sampleState.db.race_results.length).Pairwise
            (fun a b => a.time_taken ≤ b.time_taken) ∧
      ∀ v : ℚ,
        (((racePage "Asphalt Sprint" 1 1000 5000 (fun _ => 1) none
            sampleState).state.db.race_results.drop
            sampleState.db.race_results.length).filter
              (fun r => decide (r.time_taken = v))).map RaceResult.car_id
          = (sampleState.db.cars.filter
              (fun c => decide (carTime 1 (fun _ => 1) c = v))).map Car.car_id) :=
  ⟨rfl, by simp [sampleState, sampleDb],
    settlement_results_positions "Asphalt Sprint" 1 1000 5000 (fun _ => 1) sampleState
      rfl (by simp [sampleState, sampleDb])⟩

/-! ## The recorded winner (claim C5) -/

/-- C5: after a successful settlement, the Race row of the settled race
carries a winner team id, that id is the team of the car that received
position 1, and that car is a roster car: the recorded winner equals the
team owning the position-1 car. -/
theorem settlement_winner_owns_position_one (track_name : String)
    (track_factor fee prize : ℚ) (randf : Car → ℚ) (s : SnowflakeState)
    (hTx : s.in_transaction = false) (hcars : s.db.cars ≠ []) :
    ∃ w : ℤ,
      (∃ r ∈ (racePage track_name track_factor fee prize randf none s).state.db.races,
        r.race_id = (racePage track_name track_factor fee prize randf none s).race_id ∧
        r.winner_team_id = some w) ∧
      ∃ res ∈ ((racePage track_name track_factor fee prize randf none
          s).state.db.race_results.drop s.db.race_results.length),
        res.position = 1 ∧
        ∃ c ∈ s.db.cars, c.car_id = res.car_id ∧ c.team_id = w := by
  rw [racePage_success_eq track_name track_factor fee prize randf s hTx hcars]
  dsimp only
  have hrows_ne : computeRows s.db.teams s.db.cars track_factor randf ≠ [] := by
    simp [computeRows, hcars]
  obtain ⟨hd, tl, hcons⟩ :=
    List.exists_cons_of_ne_nil (sortRows_ne_nil hrows_ne)
  obtain ⟨cw, hcw, hcwteam, hcwcar⟩ :=
    winner_team_mem_cars s.db.teams s.db.cars track_factor randf hcars
  set w := (sortRows (computeRows s.db.teams s.db.cars track_factor randf)).headI.team_id
    with hw
  set rid := nextRaceId s.db with hrid
  refine ⟨w, ?_, ?_⟩
  · refine ⟨⟨rid, track_name, some w⟩, ?_, rfl, rfl⟩
    have hraces : (settledDb track_name track_factor fee prize randf s.db).races
        = (s.db.races ++ [(⟨rid, track_name, none⟩ : Race)]).map
            (fun r : Race => if r.race_id = rid
              then { r with winner_team_id := some w } else r) := by
      simp [settledDb, creditDb, payFeeDb, setWinnerDb, insertResultsDb]
    rw [hraces]
    have hmem : (⟨rid, track_name, none⟩ : Race)
        ∈ s.db.races ++ [(⟨rid, track_name, none⟩ : Race)] :=
      List.mem_append_right _ (List.mem_singleton.mpr rfl)
    have h2 := List.mem_map_of_mem
      (fun r : Race => if r.race_id = rid then { r with winner_team_id := some w } else r) hmem
    simp
  · have hres : (settledDb track_name track_factor fee prize randf s.db).race_results
        = s.db.race_results ++
          (results_payload (sortRows (computeRows s.db.teams s.db.cars track_factor randf))).map
            (fun t => (⟨rid, t.1, t.2.1, t.2.2⟩ : RaceResult)) := by
      simp [settledDb, creditDb, payFeeDb, setWinnerDb, insertResultsDb]
    rw [hres, List.drop_left]
    refine ⟨⟨rid, hd.car_id, hd.time_min, 1⟩, ?_, rfl, cw, hcw, ?_, ?_⟩
    · rw [hcons]
      simp [results_payload, List.enum_cons]
    · show cw.car_id = hd.car_id
      rw [← hcwcar, hcons]
      simp
    · exact hcwteam.symm

/-- Closed-input check for `settlement_winner_owns_position_one` (claim
C5): the hypotheses hold on the sample state and the theorem applies. -/
theorem settlement_winner_owns_position_one_check :
    sampleState.in_transaction = false ∧ sampleState.db.cars ≠ [] ∧
    (∃ w : ℤ,
      (∃ r ∈ (racePage "Asphalt Sprint" 1 1000 5000 (fun _ => 1) none
          sampleState).state.db.races,
        r.race_id = (racePage "Asphalt Sprint" 1 1000 5000 (fun _ => 1) none
          sampleState).race_id ∧
        r.winner_team_id = some w) ∧
      ∃ res ∈ ((racePage "Asphalt Sprint" 1 1000 5000 (fun _ => 1) none
          sampleState).state.db.race_results.drop sampleState.db.race_results.length),
        res.position = 1 ∧
        ∃ c ∈ sampleState.db.cars, c.car_id = res.car_id ∧ c.team_id = w) :=
  ⟨rfl, by simp [sampleState, sampleDb],
    settlement_winner_owns_position_one "Asphalt Sprint" 1 1000 5000 (fun _ => 1)
      sampleState rfl (by simp [sampleState, sampleDb])⟩
